import Mathlib

/-!
Shallow embedding of the TalentScout hiring-assistant conversation core
(`conversation_manager.py`, `app.py`) and proofs of the specified
properties of its stage machine, field extraction, and question parsing.

Python strings are modelled as Lean `String` / `List Char`; the specific
regular expressions used by the source are compiled by hand into
executable scanning functions that reproduce the leftmost-match,
greedy-with-backtracking behaviour of Python's `re` module on the
concrete patterns that appear in the source.  Python `dict` candidate
info is a record of `Option String` fields plus a list; Python `None`/
empty-string falsiness is modelled explicitly.  The `TECH_KEYWORDS`
Python set literal has an unspecified iteration order, so every
function that iterates it takes the iteration order as an explicit
`List String` parameter (any permutation of the vocabulary).
-/

/-- The six whitespace characters recognised by Python's `str.split` /
`str.strip` and by `\s` in the source's ASCII-only regular expressions. -/
def isPyWs (c : Char) : Bool :=
  c == ' ' || c == '\t' || c == '\n' || c == '\r' ||
  c == Char.ofNat 11 || c == Char.ofNat 12

def isAsciiDigit (c : Char) : Bool := '0' ≤ c && c ≤ '9'

def isAsciiLowerCh (c : Char) : Bool := 'a' ≤ c && c ≤ 'z'

def isAsciiUpperCh (c : Char) : Bool := 'A' ≤ c && c ≤ 'Z'

def isAsciiAlpha (c : Char) : Bool := isAsciiLowerCh c || isAsciiUpperCh c

/-- Word character for the regex `\b` boundary: `[a-zA-Z0-9_]`. -/
def isWordChar (c : Char) : Bool := isAsciiAlpha c || isAsciiDigit c || c == '_'

/-- Python `str.strip()` on a character list. -/
def pyStripL (s : List Char) : List Char :=
  ((s.dropWhile isPyWs).reverse.dropWhile isPyWs).reverse

/-- Python `str.strip()`. -/
def pyStrip (s : String) : String := String.mk (pyStripL s.data)

/-- Python `str.split()` (split on whitespace runs, dropping empties). -/
def pySplitLAux : List Char → List Char → List (List Char)
  | [], acc => if acc.isEmpty then [] else [acc.reverse]
  | c :: rest, acc =>
    if isPyWs c then
      if acc.isEmpty then pySplitLAux rest [] else acc.reverse :: pySplitLAux rest []
    else pySplitLAux rest (c :: acc)

def pySplitL (s : List Char) : List (List Char) := pySplitLAux s []

def pySplit (s : String) : List String := (pySplitL s.data).map String.mk

/-- Python `str.lower()` (ASCII model). -/
def strLower (s : String) : String := String.mk (s.data.map Char.toLower)

/-- Python `str.title()` (ASCII model): a letter directly after a letter is
lowercased, any other letter is uppercased. -/
def pyTitleLAux : Bool → List Char → List Char
  | _, [] => []
  | prevAlpha, c :: rest =>
    (if isAsciiAlpha c then
       (if prevAlpha then Char.toLower c else Char.toUpper c)
     else c) :: pyTitleLAux (isAsciiAlpha c) rest

def pyTitleL (s : List Char) : List Char := pyTitleLAux false s

/-- Does `s` start with `pat` (character-for-character)? -/
def listStartsWithCh : List Char → List Char → Bool
  | [], _ => true
  | _ :: _, [] => false
  | p :: ps, c :: cs => (p == c) && listStartsWithCh ps cs

/-- Python substring containment `pat in s`. -/
def subScanL (pat : List Char) : List Char → Bool
  | [] => pat.isEmpty
  | c :: rest => listStartsWithCh pat (c :: rest) || subScanL pat rest

def containsSubstr (pat s : String) : Bool := subScanL pat.data s.data

/-- Case-insensitive prefix test; `pat` is given already lowercased. -/
def startsWithCI : List Char → List Char → Bool
  | [], _ => true
  | _ :: _, [] => false
  | p :: ps, c :: cs => (Char.toLower c == p) && startsWithCI ps cs

/-- Python `x in l` membership over a list of strings. -/
def strMem (x : String) (l : List String) : Bool := l.any (fun y => y == x)

/-- Python truthiness of an optional string field (`None` and `""` are falsy). -/
def truthyS : Option String → Bool
  | none => false
  | some s => !(s == "")

-- ── Email regex: `[a-zA-Z0-9._%+\-]+@[a-zA-Z0-9.\-]+\.[a-zA-Z]{2,}` ──────────

def isLocalChar (c : Char) : Bool :=
  isAsciiAlpha c || isAsciiDigit c || c == '.' || c == '_' || c == '%' || c == '+' || c == '-'

def isDomainChar (c : Char) : Bool :=
  isAsciiAlpha c || isAsciiDigit c || c == '.' || c == '-'

/-- Backtracking search for `\.[a-zA-Z]{2,}` splitting the greedy domain run:
`dom` is the text after `@`; try the domain-part length `d` (counting down,
as the greedy `+` backtracks) where `dom.get? d = '.'`, then a greedy run of
at least two letters.  Returns the matched tail length. -/
def emailDomGo (dom : List Char) : Nat → Option Nat
  | 0 => none
  | d + 1 =>
    (if dom.get? (d + 1) == some '.' then
      let r := ((dom.drop (d + 2)).takeWhile isAsciiAlpha).length
      if 2 ≤ r then some (d + 2 + r) else none
     else none).orElse (fun _ => emailDomGo dom d)

def emailDomTail (dom : List Char) : Option Nat :=
  emailDomGo dom ((dom.takeWhile isDomainChar).length - 1)

/-- Attempt the email pattern anchored at the head of `s`. -/
def emailAt (s : List Char) : Option (List Char) :=
  let l := s.takeWhile isLocalChar
  if l.isEmpty then none
  else
    match s.drop l.length with
    | '@' :: dom =>
      match emailDomTail dom with
      | some t => some (l ++ '@' :: dom.take t)
      | none => none
    | _ => none

/-- Leftmost match of the email pattern (Python `re.search`). -/
def emailScan : List Char → Option (List Char)
  | [] => none
  | c :: rest =>
    match emailAt (c :: rest) with
    | some m => some m
    | none => emailScan rest

-- ── Phone regex: `(\+?[\d\s\-().]{7,15})` ────────────────────────────────────

def isPhoneChar (c : Char) : Bool :=
  isAsciiDigit c || isPyWs c || c == '-' || c == '(' || c == ')' || c == '.'

/-- Attempt the phone pattern anchored at the head of `s`: greedy optional
`+`, then a greedy run of 7 to 15 phone-class characters. -/
def phoneAt (s : List Char) : Option (List Char) :=
  match s with
  | '+' :: rest =>
    if 7 ≤ (rest.takeWhile isPhoneChar).length then
      some ('+' :: (rest.takeWhile isPhoneChar).take 15)
    else none
  | _ =>
    if 7 ≤ (s.takeWhile isPhoneChar).length then
      some ((s.takeWhile isPhoneChar).take 15)
    else none

/-- Leftmost match of the phone pattern (Python `re.search`). -/
def phoneScan : List Char → Option (List Char)
  | [] => none
  | c :: rest =>
    match phoneAt (c :: rest) with
    | some m => some m
    | none => phoneScan rest

-- ── Years regex: `(\d+)\s*(years?|yrs?)` with IGNORECASE ─────────────────────

/-- Attempt the years pattern anchored at the head of `s`; returns group 1
(the digit run). -/
def yearsAt (s : List Char) : Option (List Char) :=
  let d := s.takeWhile isAsciiDigit
  if d.isEmpty then none
  else
    let rest := (s.drop d.length).dropWhile isPyWs
    if startsWithCI ['y', 'e', 'a', 'r'] rest || startsWithCI ['y', 'r'] rest then
      some d
    else none

/-- Leftmost match of the years pattern (Python `re.search`). -/
def yearsScan : List Char → Option (List Char)
  | [] => none
  | c :: rest =>
    match yearsAt (c :: rest) with
    | some m => some m
    | none => yearsScan rest

-- ── Tech keyword matching: `re.search(rf"\b{re.escape(tech)}\b", msg_lower)` ─

def optIsWord : Option Char → Bool
  | none => false
  | some c => isWordChar c

/-- The `\b kw \b` pattern matches at the head of `s`, with `prev` the
character just before `s` in the full text. -/
def wbAt (kw : List Char) (prev : Option Char) (s : List Char) : Bool :=
  listStartsWithCh kw s && (optIsWord prev != optIsWord kw.head?) &&
    (optIsWord kw.getLast? != optIsWord ((s.drop kw.length).head?))

def wbScan (kw : List Char) : Option Char → List Char → Bool
  | _, [] => false
  | prev, c :: rest => wbAt kw prev (c :: rest) || wbScan kw (some c) rest

/-- Word-boundary keyword search over the lowered message. -/
def wordBoundarySearch (kw : String) (s : String) : Bool :=
  wbScan kw.data none s.data

/-- Elements of the `TECH_KEYWORDS` set literal, in source order.  The
Python set's iteration order is an unspecified permutation of this list. -/
def TECH_KEYWORDS_LIST : List String :=
  ["python", "javascript", "typescript", "java", "c++", "c#", "go", "rust",
   "ruby", "php", "swift", "kotlin", "scala", "r", "matlab",
   "react", "angular", "vue", "next.js", "nuxt", "svelte",
   "django", "flask", "fastapi", "spring", "express", "nest.js",
   "node.js", "nodejs", "deno",
   "postgresql", "mysql", "sqlite", "mongodb", "redis", "cassandra",
   "elasticsearch", "firebase", "supabase",
   "docker", "kubernetes", "terraform", "ansible",
   "aws", "gcp", "azure", "heroku", "vercel",
   "git", "github", "gitlab", "jira", "linux",
   "machine learning", "ml", "deep learning", "tensorflow", "pytorch",
   "pandas", "numpy", "scikit-learn", "spark", "hadoop",
   "graphql", "rest", "grpc", "kafka", "rabbitmq"]

/-- `tech.title() if len(tech) > 3 else tech.upper()`. -/
def techDisplay (k : String) : String :=
  if 3 < k.length then String.mk (pyTitleL k.data)
  else String.mk (k.data.map Char.toUpper)

/-- The `found` list of one extraction call: keywords of the iteration
order `ord` that word-boundary-match the lowered message, in `ord` order,
mapped to display form. -/
def techFound (ord : List String) (msgLower : String) : List String :=
  (ord.filter (fun k => wordBoundarySearch k msgLower)).map techDisplay

-- ── Candidate info record and `extract_and_update_info` ──────────────────────

structure CandidateInfo where
  full_name : Option String
  email : Option String
  phone : Option String
  years_experience : Option String
  desired_position : Option String
  location : Option String
  tech_stack : List String
deriving Repr, DecidableEq

def emptyInfo : CandidateInfo :=
  { full_name := none, email := none, phone := none, years_experience := none,
    desired_position := none, location := none, tech_stack := [] }

/-- Email block of `extract_and_update_info`. -/
def emailStep (info : CandidateInfo) (msg : String) : CandidateInfo :=
  if truthyS info.email then info
  else
    match emailScan msg.data with
    | some m => { info with email := some (String.mk m) }
    | none => info

/-- Phone block of `extract_and_update_info` (first regex match, stripped,
kept only when it has at least 7 digits). -/
def phoneStep (info : CandidateInfo) (msg : String) : CandidateInfo :=
  if truthyS info.phone then info
  else
    match phoneScan msg.data with
    | some m =>
      if 7 ≤ (pyStripL m).countP isAsciiDigit then
        { info with phone := some (String.mk (pyStripL m)) }
      else info
    | none => info

/-- Years-of-experience block of `extract_and_update_info`. -/
def yearsStep (info : CandidateInfo) (msg : String) : CandidateInfo :=
  if truthyS info.years_experience then info
  else
    match yearsScan msg.data with
    | some d => { info with years_experience := some (String.mk d ++ " years") }
    | none => info

/-- Tech-stack block of `extract_and_update_info`: append the found keywords
not already present case-insensitively (membership checked against a snapshot
of the stack taken before the loop, as in the source). -/
def techUpdate (ord : List String) (info : CandidateInfo) (msgLower : String) :
    CandidateInfo :=
  if (techFound ord msgLower).isEmpty then info
  else
    { info with
      tech_stack := info.tech_stack ++
        (techFound ord msgLower).filter
          (fun t => !(strMem (strLower t) (info.tech_stack.map strLower))) }

/-- `ConversationManager.extract_and_update_info`.  `ord` is the iteration
order of the `TECH_KEYWORDS` set (a permutation of `TECH_KEYWORDS_LIST`). -/
def extract_and_update_info (ord : List String) (info : CandidateInfo)
    (user_message : String) : CandidateInfo :=
  let msg := pyStrip user_message
  techUpdate ord (yearsStep (phoneStep (emailStep info msg) msg) msg) (strLower msg)

-- ── Question parser: `ConversationManager._parse_questions` ──────────────────

def qWord : List Char := ['q', 'u', 'e', 's', 't', 'i', 'o', 'n']

/-- Greedy match of the marker `question\s*\d+[:\.]?\s*` (IGNORECASE) at the
head of `s`.  Returns the matched length together with whether the regex
engine could give back one trailing character (from the trailing `\s*`, the
optional `[:\.]`, or a surplus digit of `\d+`) when the lazy `(.+?)` that
follows needs a character at end of text. -/
def markerFullLen (s : List Char) : Option (Nat × Bool) :=
  if startsWithCI qWord s then
    let r1 := s.drop 8
    let w1 := (r1.takeWhile isPyWs).length
    let r2 := r1.drop w1
    let d := (r2.takeWhile isAsciiDigit).length
    if d == 0 then none
    else
      let r3 := r2.drop d
      let p := match r3 with
        | c :: _ => if c == ':' || c == '.' then 1 else 0
        | [] => 0
      let r4 := r3.drop p
      let w2 := (r4.takeWhile isPyWs).length
      some (8 + w1 + d + p + w2, (w2 != 0) || (p != 0) || decide (1 < d))
  else none

/-- The lookahead `(?=question\s*\d+)` matches at the head of `s`. -/
def lookMarker (s : List Char) : Bool :=
  startsWithCI qWord s &&
    (match (s.drop 8).dropWhile isPyWs with
     | c :: _ => isAsciiDigit c
     | [] => false)

/-- `$` (no MULTILINE): end of text, or just before a final newline. -/
def dollarOk (s : List Char) (k : Nat) : Bool :=
  (s.drop k).isEmpty || s.drop k == ['\n']

/-- Smallest end position `≥ k` for the lazy capture `(.+?)` whose lookahead
`(?=question\s*\d+|$)` succeeds. -/
def findCapEnd (s : List Char) : Nat → Nat → Nat
  | 0, k => k
  | fuel + 1, k =>
    if lookMarker (s.drop k) || dollarOk s k then k
    else findCapEnd s fuel (k + 1)

/-- `re.findall` of `(?:question\s*\d+[:\.]?\s*)(.+?)(?=question\s*\d+|$)`
with IGNORECASE and DOTALL, scanning start positions left to right. -/
def pqGo (s : List Char) : Nat → Nat → List (List Char) → List (List Char)
  | 0, _, acc => acc.reverse
  | fuel + 1, i, acc =>
    if s.length ≤ i then acc.reverse
    else
      match markerFullLen (s.drop i) with
      | some (m, gb) =>
        let j := i + m
        if j < s.length then
          let k := findCapEnd s (s.length + 1) (j + 1)
          pqGo s fuel k ((s.drop j).take (k - j) :: acc)
        else
          if gb then ((s.drop (j - 1)).take 1 :: acc).reverse
          else pqGo s fuel (i + 1) acc
      | none => pqGo s fuel (i + 1) acc

/-- Fallback line parser: a line matching
`^\s*[\*\-]?\s*\d+[\.\)]\s+.{10,}` yields the line with that prefix
(greedy `\s+`) removed and stripped, if non-empty. -/
def fbLine (l : List Char) : Option (List Char) :=
  let r1 := l.dropWhile isPyWs
  let r2 := match r1 with
    | c :: rest => if c == '*' || c == '-' then rest else r1
    | [] => r1
  let r3 := r2.dropWhile isPyWs
  let d := (r3.takeWhile isAsciiDigit).length
  if d == 0 then none
  else
    match r3.drop d with
    | c :: rest =>
      if c == '.' || c == ')' then
        match rest with
        | c2 :: _ =>
          if isPyWs c2 && decide (11 ≤ rest.length) then
            let clean := pyStripL (rest.dropWhile isPyWs)
            if clean.isEmpty then none else some clean
          else none
        | [] => none
      else none
    | [] => none

/-- Python `text.split("\n")` (keeps empty pieces). -/
def splitLinesAux : List Char → List Char → List (List Char)
  | [], acc => [acc.reverse]
  | c :: rest, acc =>
    if c == '\n' then acc.reverse :: splitLinesAux rest []
    else splitLinesAux rest (c :: acc)

def splitLines (s : List Char) : List (List Char) := splitLinesAux s []

/-- `ConversationManager._parse_questions` on character lists. -/
def parseQuestionsL (s : List Char) : List (List Char) :=
  let found := pqGo s (s.length + 1) 0 []
  let qs := (found.filter (fun q => decide (10 < (pyStripL q).length))).map
    (fun q => (pyStripL q).map (fun c => if c == '\n' then ' ' else c))
  let qs := if qs.isEmpty then (splitLines s).filterMap fbLine else qs
  qs.take 5

def parseQuestions (text : String) : List String :=
  (parseQuestionsL text.data).map String.mk

-- ── Manager state and stage machine ──────────────────────────────────────────

def STAGES : List String :=
  ["greeting", "gathering_info", "tech_stack", "technical_questions", "closing"]

structure ManagerState where
  stage : String
  candidate_info : CandidateInfo
  questions : List String
  answered_count : Nat
deriving Repr, DecidableEq

def initialManager : ManagerState :=
  { stage := "greeting", candidate_info := emptyInfo, questions := [], answered_count := 0 }

/-- Ordinal of a stage name: its index in `STAGES` (list length if absent). -/
def stageIdx (s : String) : Nat :=
  (STAGES.findIdx? (· = s)).getD STAGES.length

/-- `ConversationManager._advance_stage`: move only when both stage names are
valid (`ValueError` is swallowed) and the target ordinal is strictly larger. -/
def advanceStage (st : ManagerState) (new_stage : String) : ManagerState :=
  match STAGES.findIdx? (· = st.stage), STAGES.findIdx? (· = new_stage) with
  | some current_idx, some new_idx =>
    if current_idx < new_idx then { st with stage := new_stage } else st
  | _, _ => st

def apoS : String := String.singleton (Char.ofNat 39)

def TRANSITION_SIGNALS : List String :=
  ["technical question", "few questions", "based on your stack",
   "assess your", "let" ++ apoS ++ "s test", "now ask"]

def GREET_KEYWORDS : List String := ["hello", "hi", "hey", "help"]

/-- `all(info.get(f) for f in REQUIRED_FIELDS)` (Python truthiness, in the
fixed field order). -/
def allRequired (info : CandidateInfo) : Bool :=
  truthyS info.full_name && truthyS info.email && truthyS info.phone &&
  truthyS info.years_experience && truthyS info.desired_position &&
  truthyS info.location

/-- Final part of the `technical_questions` branch: store the (possibly just
parsed) question list and updated answer count, then possibly advance to
closing. -/
def techStepCore (st : ManagerState) (qs : List String) (ans : Nat) : ManagerState :=
  if decide (qs.length ≤ ans) && !qs.isEmpty then
    advanceStage { st with questions := qs, answered_count := ans } "closing"
  else { st with questions := qs, answered_count := ans }

/-- The answered-count update of the `technical_questions` branch. -/
def answeredUpdate (st : ManagerState) (qs : List String) (user_message : String) : Nat :=
  if !qs.isEmpty && decide (10 < user_message.length) then
    min (st.answered_count + 1) qs.length
  else st.answered_count

/-- The `technical_questions` branch of `process_ai_response`: parse
questions on first sight, count an answer for a long-enough utterance
(capped at the question count), then possibly advance to closing. -/
def techStep (st : ManagerState) (ai_response user_message : String) : ManagerState :=
  let qs := if st.questions.isEmpty then parseQuestions ai_response else st.questions
  techStepCore st qs (answeredUpdate st qs user_message)

/-- Stage-transition part of `ConversationManager.process_ai_response`
(everything before the trailing name heuristic). -/
def stageStep (st : ManagerState) (ai_response user_message : String) : ManagerState :=
  if st.stage = "greeting" then
    if decide ((pySplit user_message).length ≤ 5) &&
       !(GREET_KEYWORDS.any (fun kw => containsSubstr kw (strLower user_message))) then
      advanceStage st "gathering_info"
    else if truthyS st.candidate_info.full_name then
      advanceStage st "gathering_info"
    else st
  else if st.stage = "gathering_info" then
    if allRequired st.candidate_info then advanceStage st "tech_stack" else st
  else if st.stage = "tech_stack" then
    if !st.candidate_info.tech_stack.isEmpty &&
       decide (1 ≤ st.candidate_info.tech_stack.length) then
      if TRANSITION_SIGNALS.any (fun sig => containsSubstr sig (strLower ai_response)) then
        advanceStage st "technical_questions"
      else st
    else st
  else if st.stage = "technical_questions" then
    techStep st ai_response user_message
  else st

/-- Trailing full-name heuristic of `process_ai_response`; `origStage` is the
local `stage` variable captured before any transition. -/
def nameHeuristic (origStage : String) (st : ManagerState) (user_message : String) :
    ManagerState :=
  if !truthyS st.candidate_info.full_name &&
     (origStage = "greeting" || origStage = "gathering_info") then
    if decide (1 ≤ (pySplitL (pyStripL user_message.data)).length) &&
       decide ((pySplitL (pyStripL user_message.data)).length ≤ 4) &&
       (pySplitL (pyStripL user_message.data)).all (fun w => isAsciiUpperCh (w.headD ' ') ||
         (!w.isEmpty && w.all isAsciiAlpha)) then
      { st with candidate_info :=
          { st.candidate_info with
            full_name := some (String.mk (pyTitleL (pyStripL user_message.data))) } }
    else st
  else st

/-- `ConversationManager.process_ai_response`. -/
def process_ai_response (st : ManagerState) (ai_response user_message : String) :
    ManagerState :=
  nameHeuristic st.stage (stageStep st ai_response user_message) user_message

/-- `ConversationManager.get_farewell_message` (apostrophes built via
`apoS`).  When `full_name` is a non-empty all-whitespace string the Python
code raises `IndexError` on `name.split()[0]`; that state is unreachable
from the extractor and is modelled here by an empty first name. -/
def get_farewell_message (st : ManagerState) : String :=
  let name := match st.candidate_info.full_name with
    | some s => if s = "" then "there" else s
    | none => "there"
  let first := if name = "there" then name else (pySplit name).headD ""
  "🎉 **Thank you, " ++ first ++ "!**\n\n" ++
  "Your profile has been submitted to the TalentScout team. Here" ++ apoS ++
  "s what happens next:\n\n" ++
  "- 📧 You" ++ apoS ++ "ll receive a confirmation email within **24 hours**\n" ++
  "- 👥 A recruiter will review your profile within **3–5 business days**\n" ++
  "- 📞 If shortlisted, we" ++ apoS ++
  "ll reach out to schedule a detailed interview\n\n" ++
  "We appreciate your time and wish you the best of luck! 🚀\n\n" ++
  "*This session has ended. You can start a new one using the sidebar.*"

-- ── Session orchestrator: `app.handle_user_input` and the main turn loop ─────

def APP_EXIT_KEYWORDS : List String := ["exit", "quit", "bye", "goodbye", "end", "stop"]

structure SessionState where
  manager : ManagerState
  messages : List (String × String)
  conversation_ended : Bool
deriving Repr, DecidableEq

structure TurnOutput where
  session : SessionState
  response : String
  saves : List (CandidateInfo × List (String × String))
  model_called : Bool
deriving Repr, DecidableEq

/-- `app.handle_user_input`.  The external completion call is an oracle:
`ai_response` is the text it would return; `model_called` records whether it
was consulted; `saves` records each `data_handler.save_session` invocation
with its arguments. -/
def handle_user_input (ord : List String) (sess : SessionState)
    (user_input : String) (ai_response : String) : TurnOutput :=
  if APP_EXIT_KEYWORDS.any (fun kw => strMem kw (pySplit (strLower user_input))) then
    { session := { sess with conversation_ended := true },
      response := get_farewell_message sess.manager,
      saves := [(sess.manager.candidate_info, sess.messages)],
      model_called := false }
  else
    let m1 := { sess.manager with
      candidate_info := extract_and_update_info ord sess.manager.candidate_info user_input }
    let m2 := process_ai_response m1 ai_response user_input
    { session := { sess with manager := m2 },
      response := ai_response, saves := [], model_called := true }

/-- One turn of `app.main`'s chat loop: ended sessions ignore input; otherwise
the user message is appended, the turn is handled, and the reply appended. -/
def mainTurn (ord : List String) (sess : SessionState) (p : String × String) :
    SessionState :=
  if sess.conversation_ended then sess
  else
    let out := handle_user_input ord
      { sess with messages := sess.messages ++ [("user", p.1)] } p.1 p.2
    { out.session with messages := out.session.messages ++ [("assistant", out.response)] }

/-- A whole session: fold the turn loop over a list of
(user utterance, oracle reply) pairs. -/
def runTurns (ord : List String) (sess : SessionState)
    (turns : List (String × String)) : SessionState :=
  turns.foldl (mainTurn ord) sess

-- ── Helper lemmas ────────────────────────────────────────────────────────────

lemma strMem_iff {x : String} {l : List String} : strMem x l = true ↔ x ∈ l := by
  unfold strMem
  simp only [List.any_eq_true, beq_iff_eq]
  constructor
  · rintro ⟨y, hy, rfl⟩; exact hy
  · intro hx; exact ⟨x, hx, rfl⟩

lemma strMem_false_iff {x : String} {l : List String} :
    strMem x l = false ↔ x ∉ l := by
  rw [← Bool.not_eq_true, not_iff_not]; exact strMem_iff

lemma strMem_append {x : String} {l₁ l₂ : List String} :
    strMem x (l₁ ++ l₂) = (strMem x l₁ || strMem x l₂) := by
  unfold strMem; exact List.any_append

/-- `advanceStage` either leaves the state unchanged, or the target ordinal is
strictly larger and only the stage field changes. -/
lemma advanceStage_cases (st : ManagerState) (n : String) :
    advanceStage st n = st ∨
      (stageIdx st.stage < stageIdx n ∧ advanceStage st n = { st with stage := n }) := by
  unfold advanceStage
  rcases hc : STAGES.findIdx? (· = st.stage) with _ | ci
  · left; rfl
  · rcases hn : STAGES.findIdx? (· = n) with _ | ni
    · left; rfl
    · by_cases hlt : ci < ni
      · right
        constructor
        · unfold stageIdx; rw [hc, hn]; exact hlt
        · dsimp only; rw [if_pos hlt]
      · left; dsimp only; rw [if_neg hlt]

lemma advanceStage_candidate_info (st : ManagerState) (n : String) :
    (advanceStage st n).candidate_info = st.candidate_info := by
  rcases advanceStage_cases st n with h | ⟨_, h⟩ <;> rw [h]

lemma advanceStage_questions (st : ManagerState) (n : String) :
    (advanceStage st n).questions = st.questions := by
  rcases advanceStage_cases st n with h | ⟨_, h⟩ <;> rw [h]

lemma advanceStage_answered (st : ManagerState) (n : String) :
    (advanceStage st n).answered_count = st.answered_count := by
  rcases advanceStage_cases st n with h | ⟨_, h⟩ <;> rw [h]

lemma advanceStage_mono (st : ManagerState) (n : String) :
    stageIdx st.stage ≤ stageIdx (advanceStage st n).stage := by
  rcases advanceStage_cases st n with h | ⟨hlt, h⟩ <;> rw [h]
  exact Nat.le_of_lt hlt

lemma advanceStage_noop (st : ManagerState) (n : String)
    (h : ¬ stageIdx st.stage < stageIdx n) : advanceStage st n = st := by
  rcases advanceStage_cases st n with h' | ⟨hlt, _⟩
  · exact h'
  · exact absurd hlt h

lemma techStepCore_stage_mono (st : ManagerState) (qs : List String) (ans : Nat) :
    stageIdx st.stage ≤ stageIdx (techStepCore st qs ans).stage := by
  unfold techStepCore
  split
  · have h := advanceStage_mono { st with questions := qs, answered_count := ans } "closing"
    exact h
  · exact Nat.le_refl _

lemma techStep_stage_mono (st : ManagerState) (ai u : String) :
    stageIdx st.stage ≤ stageIdx (techStep st ai u).stage :=
  techStepCore_stage_mono st _ _

lemma stageStep_stage_mono (st : ManagerState) (ai u : String) :
    stageIdx st.stage ≤ stageIdx (stageStep st ai u).stage := by
  unfold stageStep
  split
  · split
    · exact advanceStage_mono _ _
    · split
      · exact advanceStage_mono _ _
      · exact Nat.le_refl _
  · split
    · split
      · exact advanceStage_mono _ _
      · exact Nat.le_refl _
    · split
      · split
        · split
          · exact advanceStage_mono _ _
          · exact Nat.le_refl _
        · exact Nat.le_refl _
      · split
        · exact techStep_stage_mono _ _ _
        · exact Nat.le_refl _

lemma nameHeuristic_stage (o : String) (st : ManagerState) (u : String) :
    (nameHeuristic o st u).stage = st.stage := by
  unfold nameHeuristic
  split
  · split <;> rfl
  · rfl

lemma process_stage_mono (st : ManagerState) (ai u : String) :
    stageIdx st.stage ≤ stageIdx (process_ai_response st ai u).stage := by
  unfold process_ai_response
  rw [nameHeuristic_stage]
  exact stageStep_stage_mono _ _ _

-- ── Field-preservation lemmas for the extraction steps ───────────────────────

lemma emailStep_phone (info : CandidateInfo) (msg : String) :
    (emailStep info msg).phone = info.phone := by
  unfold emailStep; split
  · rfl
  · split <;> rfl

lemma emailStep_years (info : CandidateInfo) (msg : String) :
    (emailStep info msg).years_experience = info.years_experience := by
  unfold emailStep; split
  · rfl
  · split <;> rfl

lemma emailStep_tech (info : CandidateInfo) (msg : String) :
    (emailStep info msg).tech_stack = info.tech_stack := by
  unfold emailStep; split
  · rfl
  · split <;> rfl

lemma emailStep_email_none (info : CandidateInfo) (msg : String)
    (h : info.email = none) :
    (emailStep info msg).email = (emailScan msg.data).map String.mk := by
  unfold emailStep
  rw [h]
  simp only [truthyS, Bool.false_eq_true, if_false]
  cases emailScan msg.data with
  | none => exact h
  | some m => rfl

lemma emailStep_email_some (info : CandidateInfo) (msg : String) (e : String)
    (h : info.email = some e) (hne : e ≠ "") :
    (emailStep info msg).email = some e := by
  unfold emailStep
  rw [h]
  have ht : truthyS (some e) = true := by
    simp only [truthyS, Bool.not_eq_true', beq_eq_false_iff_ne, ne_eq]
    exact hne
  rw [ht, if_pos rfl]
  exact h

lemma phoneStep_email (info : CandidateInfo) (msg : String) :
    (phoneStep info msg).email = info.email := by
  unfold phoneStep; split
  · rfl
  · split
    · split <;> rfl
    · rfl

lemma phoneStep_years (info : CandidateInfo) (msg : String) :
    (phoneStep info msg).years_experience = info.years_experience := by
  unfold phoneStep; split
  · rfl
  · split
    · split <;> rfl
    · rfl

lemma phoneStep_tech (info : CandidateInfo) (msg : String) :
    (phoneStep info msg).tech_stack = info.tech_stack := by
  unfold phoneStep; split
  · rfl
  · split
    · split <;> rfl
    · rfl

lemma phoneStep_phone_none (info : CandidateInfo) (msg : String)
    (h : info.phone = none) :
    (phoneStep info msg).phone =
      (phoneScan msg.data).bind (fun m =>
        if 7 ≤ (pyStripL m).countP isAsciiDigit then some (String.mk (pyStripL m))
        else none) := by
  unfold phoneStep
  rw [h]
  simp only [truthyS, Bool.false_eq_true, if_false]
  cases phoneScan msg.data with
  | none => exact h
  | some m =>
    have hb : (some m).bind (fun m =>
        if 7 ≤ (pyStripL m).countP isAsciiDigit then some (String.mk (pyStripL m))
        else none) =
        if 7 ≤ (pyStripL m).countP isAsciiDigit then some (String.mk (pyStripL m))
        else none := rfl
    rw [hb]
    dsimp only
    by_cases hc : 7 ≤ (pyStripL m).countP isAsciiDigit
    · rw [if_pos hc, if_pos hc]
    · rw [if_neg hc, if_neg hc]; exact h

lemma yearsStep_email (info : CandidateInfo) (msg : String) :
    (yearsStep info msg).email = info.email := by
  unfold yearsStep; split
  · rfl
  · split <;> rfl

lemma yearsStep_phone (info : CandidateInfo) (msg : String) :
    (yearsStep info msg).phone = info.phone := by
  unfold yearsStep; split
  · rfl
  · split <;> rfl

lemma yearsStep_tech (info : CandidateInfo) (msg : String) :
    (yearsStep info msg).tech_stack = info.tech_stack := by
  unfold yearsStep; split
  · rfl
  · split <;> rfl

lemma yearsStep_years_none (info : CandidateInfo) (msg : String)
    (h : info.years_experience = none) :
    (yearsStep info msg).years_experience =
      (yearsScan msg.data).map (fun d => String.mk d ++ " years") := by
  unfold yearsStep
  rw [h]
  simp only [truthyS, Bool.false_eq_true, if_false]
  cases yearsScan msg.data with
  | none => exact h
  | some d => rfl

lemma techUpdate_email (ord : List String) (info : CandidateInfo) (m : String) :
    (techUpdate ord info m).email = info.email := by
  unfold techUpdate; split <;> rfl

lemma techUpdate_phone (ord : List String) (info : CandidateInfo) (m : String) :
    (techUpdate ord info m).phone = info.phone := by
  unfold techUpdate; split <;> rfl

lemma techUpdate_years (ord : List String) (info : CandidateInfo) (m : String) :
    (techUpdate ord info m).years_experience = info.years_experience := by
  unfold techUpdate; split <;> rfl

lemma techUpdate_tech (ord : List String) (info : CandidateInfo) (m : String) :
    (techUpdate ord info m).tech_stack =
      (if (techFound ord m).isEmpty then info.tech_stack
       else info.tech_stack ++ (techFound ord m).filter
         (fun t => !(strMem (strLower t) (info.tech_stack.map strLower)))) := by
  unfold techUpdate
  split <;> rfl

/-- Field view of a whole extraction call for the email field. -/
lemma extract_email_none (ord : List String) (info : CandidateInfo) (u : String)
    (h : info.email = none) :
    (extract_and_update_info ord info u).email =
      (emailScan (pyStrip u).data).map String.mk := by
  unfold extract_and_update_info
  rw [techUpdate_email, yearsStep_email, phoneStep_email, emailStep_email_none _ _ h]

lemma extract_email_some (ord : List String) (info : CandidateInfo) (u : String)
    (e : String) (h : info.email = some e) (hne : e ≠ "") :
    (extract_and_update_info ord info u).email = some e := by
  unfold extract_and_update_info
  rw [techUpdate_email, yearsStep_email, phoneStep_email, emailStep_email_some _ _ _ h hne]

lemma extract_phone_none (ord : List String) (info : CandidateInfo) (u : String)
    (h : info.phone = none) :
    (extract_and_update_info ord info u).phone =
      (phoneScan (pyStrip u).data).bind (fun m =>
        if 7 ≤ (pyStripL m).countP isAsciiDigit then some (String.mk (pyStripL m))
        else none) := by
  unfold extract_and_update_info
  rw [techUpdate_phone, yearsStep_phone,
    phoneStep_phone_none _ _ (by rw [emailStep_phone]; exact h)]

lemma extract_tech (ord : List String) (info : CandidateInfo) (u : String) :
    (extract_and_update_info ord info u).tech_stack =
      (if (techFound ord (strLower (pyStrip u))).isEmpty then info.tech_stack
       else info.tech_stack ++ (techFound ord (strLower (pyStrip u))).filter
         (fun t => !(strMem (strLower t) (info.tech_stack.map strLower)))) := by
  unfold extract_and_update_info
  rw [techUpdate_tech, yearsStep_tech, phoneStep_tech, emailStep_tech]

-- ── Question-list and answered-count lemmas ──────────────────────────────────

lemma techStepCore_questions (st : ManagerState) (qs : List String) (ans : Nat) :
    (techStepCore st qs ans).questions = qs := by
  unfold techStepCore
  split
  · rw [advanceStage_questions]
  · rfl

lemma techStepCore_answered (st : ManagerState) (qs : List String) (ans : Nat) :
    (techStepCore st qs ans).answered_count = ans := by
  unfold techStepCore
  split
  · rw [advanceStage_answered]
  · rfl

lemma techStepCore_info (st : ManagerState) (qs : List String) (ans : Nat) :
    (techStepCore st qs ans).candidate_info = st.candidate_info := by
  unfold techStepCore
  split
  · rw [advanceStage_candidate_info]
  · rfl

lemma isEmpty_false_of_ne_nil {α} {l : List α} (h : l ≠ []) : l.isEmpty = false := by
  cases l with
  | nil => exact absurd rfl h
  | cons a t => rfl

lemma techStep_questions_nonempty (st : ManagerState) (ai u : String)
    (h : st.questions ≠ []) : (techStep st ai u).questions = st.questions := by
  unfold techStep
  rw [isEmpty_false_of_ne_nil h]
  simp only [Bool.false_eq_true, if_false]
  exact techStepCore_questions st st.questions _

lemma techStep_questions_empty (st : ManagerState) (ai u : String)
    (h : st.questions = []) : (techStep st ai u).questions = parseQuestions ai := by
  unfold techStep
  rw [h]
  simp only [List.isEmpty_nil, if_true]
  exact techStepCore_questions st _ _

lemma stageStep_questions_nonempty (st : ManagerState) (ai u : String)
    (h : st.questions ≠ []) : (stageStep st ai u).questions = st.questions := by
  unfold stageStep
  split
  · split
    · rw [advanceStage_questions]
    · split
      · rw [advanceStage_questions]
      · rfl
  · split
    · split
      · rw [advanceStage_questions]
      · rfl
    · split
      · split
        · split
          · rw [advanceStage_questions]
          · rfl
        · rfl
      · split
        · exact techStep_questions_nonempty st ai u h
        · rfl

lemma stageStep_eq_techStep (st : ManagerState) (ai u : String)
    (h : st.stage = "technical_questions") : stageStep st ai u = techStep st ai u := by
  unfold stageStep
  rw [h]
  rw [if_neg (by decide : ¬ ("technical_questions" : String) = "greeting")]
  rw [if_neg (by decide : ¬ ("technical_questions" : String) = "gathering_info")]
  rw [if_neg (by decide : ¬ ("technical_questions" : String) = "tech_stack")]
  rw [if_pos rfl]

lemma stageStep_questions_ne_tq (st : ManagerState) (ai u : String)
    (h : st.stage ≠ "technical_questions") :
    (stageStep st ai u).questions = st.questions := by
  unfold stageStep
  split_ifs
  all_goals try rw [advanceStage_questions]
  all_goals rfl

lemma nameHeuristic_questions (o : String) (st : ManagerState) (u : String) :
    (nameHeuristic o st u).questions = st.questions := by
  unfold nameHeuristic
  split
  · split <;> rfl
  · rfl

lemma nameHeuristic_answered (o : String) (st : ManagerState) (u : String) :
    (nameHeuristic o st u).answered_count = st.answered_count := by
  unfold nameHeuristic
  split
  · split <;> rfl
  · rfl

lemma process_questions_nonempty (st : ManagerState) (ai u : String)
    (h : st.questions ≠ []) : (process_ai_response st ai u).questions = st.questions := by
  unfold process_ai_response
  rw [nameHeuristic_questions]
  exact stageStep_questions_nonempty st ai u h

lemma process_questions_first (st : ManagerState) (ai u : String)
    (h1 : st.stage = "technical_questions") (h2 : st.questions = []) :
    (process_ai_response st ai u).questions = parseQuestions ai := by
  unfold process_ai_response
  rw [nameHeuristic_questions, stageStep_eq_techStep st ai u h1]
  exact techStep_questions_empty st ai u h2

lemma process_questions_ne_tq (st : ManagerState) (ai u : String)
    (h : st.stage ≠ "technical_questions") :
    (process_ai_response st ai u).questions = st.questions := by
  unfold process_ai_response
  rw [nameHeuristic_questions]
  exact stageStep_questions_ne_tq st ai u h

-- ── Turn-level lemmas ────────────────────────────────────────────────────────

/-- What one loop turn does to the manager: nothing when the session has
ended or the turn is an exit turn; otherwise extraction followed by
response processing. -/
lemma mainTurn_manager (ord : List String) (sess : SessionState) (p : String × String) :
    (mainTurn ord sess p).manager =
      (if sess.conversation_ended then sess.manager
       else if APP_EXIT_KEYWORDS.any (fun kw => strMem kw (pySplit (strLower p.1))) then
         sess.manager
       else process_ai_response
         { sess.manager with
           candidate_info := extract_and_update_info ord sess.manager.candidate_info p.1 }
         p.2 p.1) := by
  unfold mainTurn handle_user_input
  by_cases h1 : sess.conversation_ended
  · rw [if_pos h1, if_pos h1]
  · rw [if_neg h1, if_neg h1]
    by_cases h2 : (APP_EXIT_KEYWORDS.any
        (fun kw => strMem kw (pySplit (strLower p.1)))) = true
    · rw [if_pos h2, if_pos h2]
    · rw [if_neg h2, if_neg h2]

lemma mainTurn_stage_mono (ord : List String) (sess : SessionState) (p : String × String) :
    stageIdx sess.manager.stage ≤ stageIdx (mainTurn ord sess p).manager.stage := by
  rw [mainTurn_manager]
  split_ifs
  · exact Nat.le_refl _
  · exact Nat.le_refl _
  · exact process_stage_mono
      { sess.manager with
        candidate_info := extract_and_update_info ord sess.manager.candidate_info p.1 }
      p.2 p.1

lemma mainTurn_questions_nonempty (ord : List String) (sess : SessionState)
    (p : String × String) (h : sess.manager.questions ≠ []) :
    (mainTurn ord sess p).manager.questions = sess.manager.questions := by
  rw [mainTurn_manager]
  split_ifs
  · rfl
  · rfl
  · exact process_questions_nonempty
      { sess.manager with
        candidate_info := extract_and_update_info ord sess.manager.candidate_info p.1 }
      p.2 p.1 h

lemma runTurns_stage_mono (ord : List String) (sess : SessionState)
    (turns : List (String × String)) :
    stageIdx sess.manager.stage ≤ stageIdx (runTurns ord sess turns).manager.stage := by
  induction turns generalizing sess with
  | nil => exact Nat.le_refl _
  | cons t ts ih =>
    exact Nat.le_trans (mainTurn_stage_mono ord sess t) (ih (mainTurn ord sess t))

lemma runTurns_questions_nonempty (ord : List String) (sess : SessionState)
    (turns : List (String × String)) (h : sess.manager.questions ≠ []) :
    (runTurns ord sess turns).manager.questions = sess.manager.questions := by
  induction turns generalizing sess with
  | nil => rfl
  | cons t ts ih =>
    have h1 := mainTurn_questions_nonempty ord sess t h
    have h2 : (mainTurn ord sess t).manager.questions ≠ [] := by rw [h1]; exact h
    calc (runTurns ord (mainTurn ord sess t) ts).manager.questions
        = (mainTurn ord sess t).manager.questions := ih (mainTurn ord sess t) h2
      _ = sess.manager.questions := h1

-- ── Claim theorems ───────────────────────────────────────────────────────────

/-- C1: the stage ordinal is monotonically non-decreasing across every
sequence of turns, and every stage-advance call either moves to a strictly
later stage or is a no-op (never an error): a transition request whose
target is not strictly later leaves the state unchanged. -/
theorem stage_transitions_monotone :
    (∀ (st : ManagerState) (n : String),
        advanceStage st n = st ∨
          (stageIdx st.stage < stageIdx n ∧ advanceStage st n = { st with stage := n })) ∧
    (∀ (st : ManagerState) (n : String),
        ¬ stageIdx st.stage < stageIdx n → advanceStage st n = st) ∧
    (∀ (ord : List String) (sess : SessionState) (turns : List (String × String)),
        stageIdx sess.manager.stage ≤ stageIdx (runTurns ord sess turns).manager.stage) :=
  ⟨advanceStage_cases, advanceStage_noop, runTurns_stage_mono⟩

/-- Witness for C1 at a concrete backward transition request. -/
theorem stage_transitions_monotone_witness :
    advanceStage { initialManager with stage := "closing" } "greeting" =
      { initialManager with stage := "closing" } :=
  stage_transitions_monotone.2.1 { initialManager with stage := "closing" } "greeting"
    (by decide)

/-- C5: while in stage greeting, the per-turn evaluation moves the stage to
gathering_info exactly when the latest utterance has at most 5
whitespace-separated tokens and no greeting/help keyword occurs as a
substring of its lowered form, or full_name is already populated; otherwise
the stage stays greeting. -/
theorem greeting_stage_advance_iff :
    ∀ (st : ManagerState) (ai u : String), st.stage = "greeting" →
      (process_ai_response st ai u).stage =
        (if (decide ((pySplit u).length ≤ 5) &&
             !(GREET_KEYWORDS.any (fun kw => containsSubstr kw (strLower u)))) ||
            truthyS st.candidate_info.full_name
         then "gathering_info" else "greeting") := by
  intro st ai u h
  unfold process_ai_response
  rw [nameHeuristic_stage]
  unfold stageStep
  rw [if_pos h]
  have hadv : (advanceStage st "gathering_info").stage = "gathering_info" := by
    unfold advanceStage
    rw [h]
    rfl
  by_cases hA : (decide ((pySplit u).length ≤ 5) &&
      !(GREET_KEYWORDS.any (fun kw => containsSubstr kw (strLower u)))) = true
  · rw [if_pos hA, hadv, hA, Bool.true_or, if_pos rfl]
  · rw [if_neg hA]
    have hAf : (decide ((pySplit u).length ≤ 5) &&
        !(GREET_KEYWORDS.any (fun kw => containsSubstr kw (strLower u)))) = false :=
      Bool.not_eq_true _ ▸ hA
    by_cases hB : truthyS st.candidate_info.full_name = true
    · rw [if_pos hB, hadv, hAf, hB, Bool.false_or, if_pos rfl]
    · have hBf : truthyS st.candidate_info.full_name = false := Bool.not_eq_true _ ▸ hB
      rw [if_neg hB, hAf, hBf, Bool.false_or, if_neg (by decide), h]

/-- Witness for C5 at a concrete greeting-stage state and short utterance. -/
theorem greeting_stage_advance_iff_witness :
    (process_ai_response initialManager "ok" "Ada Lovelace").stage =
      (if (decide ((pySplit "Ada Lovelace").length ≤ 5) &&
           !(GREET_KEYWORDS.any
             (fun kw => containsSubstr kw (strLower "Ada Lovelace")))) ||
          truthyS initialManager.candidate_info.full_name
       then "gathering_info" else "greeting") :=
  greeting_stage_advance_iff initialManager "ok" "Ada Lovelace" rfl

/-- C6: the question list is populated exactly once: a turn processed in
stage technical_questions with an empty list stores exactly the parse of
that model response; any turn that sees a non-empty list leaves it
unchanged (also across whole turn sequences), and no stage other than
technical_questions ever touches it. -/
theorem questions_populated_once :
    (∀ (st : ManagerState) (ai u : String), st.questions ≠ [] →
        (process_ai_response st ai u).questions = st.questions) ∧
    (∀ (st : ManagerState) (ai u : String),
        st.stage = "technical_questions" → st.questions = [] →
        (process_ai_response st ai u).questions = parseQuestions ai) ∧
    (∀ (st : ManagerState) (ai u : String), st.stage ≠ "technical_questions" →
        (process_ai_response st ai u).questions = st.questions) ∧
    (∀ (ord : List String) (sess : SessionState) (turns : List (String × String)),
        sess.manager.questions ≠ [] →
        (runTurns ord sess turns).manager.questions = sess.manager.questions) :=
  ⟨process_questions_nonempty, process_questions_first, process_questions_ne_tq,
   runTurns_questions_nonempty⟩

/-- Witness for C6: first parse in stage technical_questions at concrete data. -/
theorem questions_populated_once_witness :
    (process_ai_response { initialManager with stage := "technical_questions" }
        "Question 1: Explain how indexes speed up database queries." "ok").questions =
      parseQuestions "Question 1: Explain how indexes speed up database queries." :=
  questions_populated_once.2.1 { initialManager with stage := "technical_questions" }
    "Question 1: Explain how indexes speed up database queries." "ok" rfl rfl

/-- C8: the question parser on the given two-question input returns exactly
those two questions in order. -/
theorem question_parser_two_questions :
    parseQuestions "Question 1: What is a closure? Question 2: Explain REST." =
      ["What is a closure?", "Explain REST."] := by decide

/-- C10: on the very turn in which the question list is first parsed
non-empty (stage technical_questions, questions empty, answered count 0), a
user utterance longer than 10 characters is already counted, so the
answered count becomes 1 on that same turn. -/
theorem first_parse_counts_answer :
    ∀ (st : ManagerState) (ai u : String),
      st.stage = "technical_questions" → st.questions = [] →
      st.answered_count = 0 → parseQuestions ai ≠ [] → 10 < u.length →
      (process_ai_response st ai u).answered_count = 1 := by
  intro st ai u h1 h2 h3 hp hl
  unfold process_ai_response
  rw [nameHeuristic_answered, stageStep_eq_techStep st ai u h1]
  unfold techStep
  rw [h2]
  simp only [List.isEmpty_nil, if_true]
  rw [techStepCore_answered]
  unfold answeredUpdate
  rw [h3, isEmpty_false_of_ne_nil hp, decide_eq_true hl]
  simp only [Bool.not_false, Bool.true_and, if_true]
  have hpos : 1 ≤ (parseQuestions ai).length := List.length_pos.mpr hp
  exact Nat.min_eq_left hpos

/-- Witness for C10 at a concrete first-generation turn. -/
theorem first_parse_counts_answer_witness :
    (process_ai_response
        { stage := "technical_questions", candidate_info := emptyInfo,
          questions := [], answered_count := 0 }
        "Question 1: What is a database index and when would you add one?"
        "Here is my long answer").answered_count = 1 :=
  first_parse_counts_answer
    { stage := "technical_questions", candidate_info := emptyInfo,
      questions := [], answered_count := 0 }
    "Question 1: What is a database index and when would you add one?"
    "Here is my long answer" rfl rfl rfl (by decide) (by decide)

/-- C2: when email is absent, extraction stores exactly the first regex
match of the email pattern in the (stripped) utterance, verbatim, or leaves
it absent when there is none; a non-empty stored email is never overwritten
by any later call. -/
theorem email_first_match_never_overwritten :
    ∀ (ord : List String) (u : String) (info : CandidateInfo),
      (info.email = none →
        (extract_and_update_info ord info u).email =
          (emailScan (pyStrip u).data).map String.mk) ∧
      (∀ e, info.email = some e → e ≠ "" →
        (extract_and_update_info ord info u).email = some e) :=
  fun ord u info =>
    ⟨fun h => extract_email_none ord info u h,
     fun e h hne => extract_email_some ord info u e h hne⟩

/-- Witness for C2: concrete extraction of the first address and
non-overwrite of a previously stored one. -/
theorem email_first_match_never_overwritten_witness :
    ((extract_and_update_info TECH_KEYWORDS_LIST emptyInfo
        "reach me at jane.doe@example.com or jd@alt.org").email =
      (emailScan (pyStrip "reach me at jane.doe@example.com or jd@alt.org").data).map
        String.mk) ∧
    (extract_and_update_info TECH_KEYWORDS_LIST
        { emptyInfo with email := some "jane.doe@example.com" }
        "now use other@new.net instead").email = some "jane.doe@example.com" :=
  ⟨(email_first_match_never_overwritten TECH_KEYWORDS_LIST
      "reach me at jane.doe@example.com or jd@alt.org" emptyInfo).1 rfl,
   (email_first_match_never_overwritten TECH_KEYWORDS_LIST
      "now use other@new.net instead"
      { emptyInfo with email := some "jane.doe@example.com" }).2
     "jane.doe@example.com" rfl (by decide)⟩

-- ── Lemmas for the tech-stack claims ─────────────────────────────────────────

lemma perm_pair_eq {α : Type} {l : List α} {a b : α} (h : l.Perm [a, b]) :
    l = [a, b] ∨ l = [b, a] := by
  have hlen : l.length = 2 := h.length_eq
  obtain ⟨x, y, rfl⟩ : ∃ x y, l = [x, y] := by
    cases l with
    | nil => simp at hlen
    | cons x t =>
      cases t with
      | nil => simp at hlen
      | cons y t2 =>
        cases t2 with
        | nil => exact ⟨x, y, rfl⟩
        | cons z t3 => simp at hlen
  have hx : x = a ∨ x = b := by
    have := h.subset (List.mem_cons_self x [y])
    simpa using this
  rcases hx with rfl | rfl
  · have h2 : [y].Perm [b] := h.cons_inv
    have : y = b := by simpa using h2.subset (List.mem_cons_self y [])
    left; rw [this]
  · have h2 : List.Perm [x, y] [x, a] := h.trans (List.Perm.swap x a [])
    have h3 : [y].Perm [a] := h2.cons_inv
    have : y = a := by simpa using h3.subset (List.mem_cons_self y [])
    right; rw [this]

lemma tech_keywords_nodup : TECH_KEYWORDS_LIST.Nodup := by decide

lemma tech_keywords_lower : ∀ k ∈ TECH_KEYWORDS_LIST, strLower (techDisplay k) = k := by
  decide

/-- Lowering the found display names recovers the matched keywords. -/
lemma techFound_map_lower (ord : List String) (m : String)
    (hperm : ord.Perm TECH_KEYWORDS_LIST) :
    (techFound ord m).map strLower = ord.filter (fun k => wordBoundarySearch k m) := by
  unfold techFound
  rw [List.map_map]
  have : ∀ k ∈ ord.filter (fun k => wordBoundarySearch k m),
      (strLower ∘ techDisplay) k = id k := by
    intro k hk
    have hk2 : k ∈ ord := List.mem_of_mem_filter hk
    exact tech_keywords_lower k (hperm.subset hk2)
  rw [List.map_congr_left this, List.map_id]

/-- C4: tech-stack extraction is idempotent — a second identical call leaves
the stack exactly as after the first — and (for any iteration order of the
keyword set) extraction preserves case-insensitive distinctness of the
stack, so no entry is ever appended whose lower-cased form already occurs. -/
theorem tech_stack_idempotent :
    ∀ (ord : List String) (info : CandidateInfo) (u : String),
      ((extract_and_update_info ord (extract_and_update_info ord info u) u).tech_stack =
        (extract_and_update_info ord info u).tech_stack) ∧
      (ord.Perm TECH_KEYWORDS_LIST → (info.tech_stack.map strLower).Nodup →
        (((extract_and_update_info ord info u).tech_stack).map strLower).Nodup) := by
  intro ord info u
  constructor
  · by_cases hF : (techFound ord (strLower (pyStrip u))).isEmpty = true
    · rw [extract_tech, if_pos hF, extract_tech, if_pos hF]
    · rw [extract_tech, if_neg hF, extract_tech ord info u, if_neg hF]
      have hfil : (techFound ord (strLower (pyStrip u))).filter
          (fun t => !(strMem (strLower t)
            (((info.tech_stack ++ (techFound ord (strLower (pyStrip u))).filter
              (fun t => !(strMem (strLower t) (info.tech_stack.map strLower)))).map
                strLower)))) = [] := by
        apply List.filter_eq_nil_iff.mpr
        intro t ht
        have hpos : strLower t ∈ (info.tech_stack ++
            (techFound ord (strLower (pyStrip u))).filter
              (fun t => !(strMem (strLower t) (info.tech_stack.map strLower)))).map
                strLower := by
          rw [List.map_append]
          by_cases hmem : strMem (strLower t) (info.tech_stack.map strLower) = true
          · exact List.mem_append_left _ (strMem_iff.mp hmem)
          · have hg : (!(strMem (strLower t) (info.tech_stack.map strLower))) = true := by
              cases hb : strMem (strLower t) (info.tech_stack.map strLower) with
              | false => rfl
              | true => exact absurd hb hmem
            apply List.mem_append_right
            exact List.mem_map_of_mem strLower (List.mem_filter.mpr ⟨ht, hg⟩)
        intro hcontra
        rw [(strMem_iff.mpr hpos : strMem _ _ = true)] at hcontra
        exact absurd hcontra (by decide)
      rw [hfil, List.append_nil]
  · intro hperm hnodup
    rw [extract_tech]
    by_cases hF : (techFound ord (strLower (pyStrip u))).isEmpty = true
    · rw [if_pos hF]; exact hnodup
    · rw [if_neg hF, List.map_append, List.nodup_append]
      refine ⟨hnodup, ?_, ?_⟩
      · have hsub : List.Sublist
            (((techFound ord (strLower (pyStrip u))).filter
              (fun t => !(strMem (strLower t) (info.tech_stack.map strLower)))).map
                strLower)
            ((techFound ord (strLower (pyStrip u))).map strLower) :=
          (List.filter_sublist _).map strLower
        have hnd : ((techFound ord (strLower (pyStrip u))).map strLower).Nodup := by
          rw [techFound_map_lower ord _ hperm]
          exact (hperm.nodup_iff.mpr tech_keywords_nodup).filter _
        exact hnd.sublist hsub
      · intro a ha hb
        obtain ⟨t, ht, rfl⟩ := List.mem_map.mp hb
        have ht2 := List.mem_filter.mp ht
        have : strMem (strLower t) (info.tech_stack.map strLower) = false := by
          rcases Bool.eq_false_or_eq_true
            (strMem (strLower t) (info.tech_stack.map strLower)) with htr | hf
          · rw [htr] at ht2; exact absurd ht2.2 (by decide)
          · exact hf
        exact absurd ha (strMem_false_iff.mp this)

/-- Witness for C4 at a concrete utterance and profile. -/
theorem tech_stack_idempotent_witness :
    ((extract_and_update_info TECH_KEYWORDS_LIST
        (extract_and_update_info TECH_KEYWORDS_LIST emptyInfo
          "I know Python and python and Docker")
        "I know Python and python and Docker").tech_stack =
      (extract_and_update_info TECH_KEYWORDS_LIST emptyInfo
        "I know Python and python and Docker").tech_stack) ∧
    (TECH_KEYWORDS_LIST.Perm TECH_KEYWORDS_LIST →
      ((emptyInfo.tech_stack.map strLower).Nodup →
        (((extract_and_update_info TECH_KEYWORDS_LIST emptyInfo
          "I know Python and python and Docker").tech_stack).map strLower).Nodup)) :=
  ⟨(tech_stack_idempotent TECH_KEYWORDS_LIST emptyInfo
      "I know Python and python and Docker").1,
   fun hp hn => (tech_stack_idempotent TECH_KEYWORDS_LIST emptyInfo
      "I know Python and python and Docker").2 hp hn⟩

-- ── C3: the scenario utterance ───────────────────────────────────────────────

lemma extract_years_none (ord : List String) (info : CandidateInfo) (u : String)
    (h : info.years_experience = none) :
    (extract_and_update_info ord info u).years_experience =
      (yearsScan (pyStrip u).data).map (fun d => String.mk d ++ " years") := by
  unfold extract_and_update_info
  rw [techUpdate_years,
    yearsStep_years_none _ _ (by rw [phoneStep_years, emailStep_years]; exact h)]

def c3msg : String := "I have 5 years of experience with Python and Docker"

/-- Counterexample for C3 as stated: the keyword vocabulary is a Python
set, so extraction may iterate it in any order; with the reversed order
(a legitimate iteration order — a permutation of the vocabulary) the same
utterance yields the stack `["Docker", "Python"]`, not `["Python",
"Docker"]`, so mention order in the utterance is not what determines the
result. -/
theorem tech_order_counterexample :
    (TECH_KEYWORDS_LIST.reverse).Perm TECH_KEYWORDS_LIST ∧
    (extract_and_update_info TECH_KEYWORDS_LIST.reverse emptyInfo c3msg).tech_stack =
      ["Docker", "Python"] ∧
    (["Docker", "Python"] : List String) ≠ ["Python", "Docker"] :=
  ⟨List.reverse_perm _, by decide, by decide⟩

/-- C3 (amended): on the scenario utterance from an empty profile,
years_experience becomes "5 years" and the stack gains exactly the entries
"Python" and "Docker", once each — in the keyword-set iteration order,
which is some unspecified permutation, so the two entries may come in
either order. -/
theorem extract_scenario_any_order :
    ∀ ord : List String, ord.Perm TECH_KEYWORDS_LIST →
      (extract_and_update_info ord emptyInfo c3msg).years_experience = some "5 years" ∧
      ((extract_and_update_info ord emptyInfo c3msg).tech_stack = ["Python", "Docker"] ∨
       (extract_and_update_info ord emptyInfo c3msg).tech_stack = ["Docker", "Python"]) := by
  intro ord hperm
  constructor
  · rw [extract_years_none ord emptyInfo c3msg rfl]
    decide
  · have hfil : ord.filter (fun k => wordBoundarySearch k (strLower (pyStrip c3msg))) =
        ["python", "docker"] ∨
        ord.filter (fun k => wordBoundarySearch k (strLower (pyStrip c3msg))) =
        ["docker", "python"] := by
      have hp2 : (ord.filter
          (fun k => wordBoundarySearch k (strLower (pyStrip c3msg)))).Perm
          (TECH_KEYWORDS_LIST.filter
            (fun k => wordBoundarySearch k (strLower (pyStrip c3msg)))) :=
        hperm.filter _
      have hconc : TECH_KEYWORDS_LIST.filter
          (fun k => wordBoundarySearch k (strLower (pyStrip c3msg))) =
          ["python", "docker"] := by decide
      rw [hconc] at hp2
      exact perm_pair_eq hp2
    have hstack : (extract_and_update_info ord emptyInfo c3msg).tech_stack =
        techFound ord (strLower (pyStrip c3msg)) := by
      have hne : (techFound ord (strLower (pyStrip c3msg))).isEmpty = false := by
        apply isEmpty_false_of_ne_nil
        unfold techFound
        rcases hfil with hf | hf <;> rw [hf] <;> simp
      rw [extract_tech, if_neg (by rw [hne]; exact Bool.false_ne_true)]
      have hkeep : (techFound ord (strLower (pyStrip c3msg))).filter
          (fun t => !(strMem (strLower t) (emptyInfo.tech_stack.map strLower))) =
          techFound ord (strLower (pyStrip c3msg)) := by
        apply List.filter_eq_self.mpr
        intro t _
        rfl
      rw [hkeep]
      rfl
    rw [hstack]
    unfold techFound
    rcases hfil with hf | hf <;> rw [hf]
    · left; decide
    · right; decide

/-- Witness for C3 (amended) at the source-order iteration of the vocabulary. -/
theorem extract_scenario_any_order_witness :
    (extract_and_update_info TECH_KEYWORDS_LIST emptyInfo c3msg).years_experience =
      some "5 years" ∧
    ((extract_and_update_info TECH_KEYWORDS_LIST emptyInfo c3msg).tech_stack =
      ["Python", "Docker"] ∨
     (extract_and_update_info TECH_KEYWORDS_LIST emptyInfo c3msg).tech_stack =
      ["Docker", "Python"]) :=
  extract_scenario_any_order TECH_KEYWORDS_LIST (List.Perm.refl _)

-- ── C9: the phone heuristic ──────────────────────────────────────────────────

/-- Character class following the claim wording for C9: digits, space,
hyphen, parentheses and plus (the source regex instead allows any
whitespace and the dot, and allows plus only as an optional first
character). -/
def specPhoneChar (c : Char) : Bool :=
  isAsciiDigit c || c == ' ' || c == '-' || c == '(' || c == ')' || c == '+'

/-- Following the claim wording for C9: does the string contain any
substring of 7 to 15 characters drawn exclusively from `specPhoneChar`
with at least 7 digits? -/
def specPhoneSubstringExists (s : String) : Bool :=
  (List.range s.data.length).any (fun i =>
    (List.range 9).any (fun d =>
      let sub := (s.data.drop i).take (7 + d)
      sub.length == 7 + d && sub.all specPhoneChar &&
        decide (7 ≤ sub.countP isAsciiDigit)))

/-- Counterexample for C9 as stated: the utterance "1.234567" contains no
substring of the claim's character class with at least 7 digits (the dot is
not in the claim's class), so the claim says phone stays absent; but the
source regex class contains the dot, and extraction stores "1.234567". -/
theorem phone_claim_counterexample :
    specPhoneSubstringExists "1.234567" = false ∧
    (extract_and_update_info TECH_KEYWORDS_LIST emptyInfo "1.234567").phone =
      some "1.234567" :=
  ⟨by decide, by decide⟩

lemma phoneAt_shape (s m : List Char) (h : phoneAt s = some m) :
    ∃ core, (m = core ∨ m = '+' :: core) ∧ (∀ c ∈ core, isPhoneChar c = true) ∧
      7 ≤ core.length ∧ core.length ≤ 15 := by
  unfold phoneAt at h
  split at h
  · rename_i rest
    split at h
    · rename_i hge
      injection h with hm
      refine ⟨(rest.takeWhile isPhoneChar).take 15, Or.inr hm.symm, ?_, ?_, ?_⟩
      · intro c hc
        exact List.mem_takeWhile_imp (List.mem_of_mem_take hc)
      · rw [List.length_take]
        exact Nat.le_min.mpr ⟨by omega, hge⟩
      · rw [List.length_take]
        exact Nat.min_le_left _ _
    · exact absurd h (by simp)
  · rename_i hne
    split at h
    · rename_i hge
      injection h with hm
      refine ⟨(s.takeWhile isPhoneChar).take 15, Or.inl hm.symm, ?_, ?_, ?_⟩
      · intro c hc
        exact List.mem_takeWhile_imp (List.mem_of_mem_take hc)
      · rw [List.length_take]
        exact Nat.le_min.mpr ⟨by omega, hge⟩
      · rw [List.length_take]
        exact Nat.min_le_left _ _
    · exact absurd h (by simp)

lemma phoneScan_shape : ∀ (s m : List Char), phoneScan s = some m →
    ∃ core, (m = core ∨ m = '+' :: core) ∧ (∀ c ∈ core, isPhoneChar c = true) ∧
      7 ≤ core.length ∧ core.length ≤ 15 := by
  intro s
  induction s with
  | nil => intro m h; exact absurd h (by simp [phoneScan])
  | cons c rest ih =>
    intro m h
    rw [phoneScan] at h
    cases hp : phoneAt (c :: rest) with
    | some m2 =>
      rw [hp] at h
      injection h with hm
      exact hm ▸ phoneAt_shape (c :: rest) m2 hp
    | none =>
      rw [hp] at h
      exact ih m h

/-- C9 (amended): when phone is absent, extraction applies the first regex
match of an optional leading plus followed by 7 to 15 characters from
digits, whitespace, hyphen, parentheses and dot; the match is stripped of
surrounding whitespace and stored only when it contains at least 7 digits,
otherwise (including when a later substring would qualify) phone stays
absent.  Every match consists of an optional leading plus and a core of 7
to 15 phone-class characters. -/
theorem phone_first_match_stripped :
    ∀ (ord : List String) (u : String) (info : CandidateInfo),
      info.phone = none →
      ((extract_and_update_info ord info u).phone =
        (phoneScan (pyStrip u).data).bind (fun m =>
          if 7 ≤ (pyStripL m).countP isAsciiDigit then some (String.mk (pyStripL m))
          else none)) ∧
      (∀ m, phoneScan (pyStrip u).data = some m →
        ∃ core, (m = core ∨ m = '+' :: core) ∧ (∀ c ∈ core, isPhoneChar c = true) ∧
          7 ≤ core.length ∧ core.length ≤ 15) :=
  fun ord u info h =>
    ⟨extract_phone_none ord info u h, fun m hm => phoneScan_shape _ m hm⟩

/-- Witness for C9 (amended) at a concrete utterance with a phone number. -/
theorem phone_first_match_stripped_witness :
    ((extract_and_update_info TECH_KEYWORDS_LIST emptyInfo
        "call 123-456-7890 soon").phone =
      (phoneScan (pyStrip "call 123-456-7890 soon").data).bind (fun m =>
        if 7 ≤ (pyStripL m).countP isAsciiDigit then some (String.mk (pyStripL m))
        else none)) ∧
    (∀ m, phoneScan (pyStrip "call 123-456-7890 soon").data = some m →
      ∃ core, (m = core ∨ m = '+' :: core) ∧ (∀ c ∈ core, isPhoneChar c = true) ∧
        7 ≤ core.length ∧ core.length ≤ 15) :=
  phone_first_match_stripped TECH_KEYWORDS_LIST "call 123-456-7890 soon" emptyInfo rfl

-- ── C7: the exit turn ────────────────────────────────────────────────────────

lemma farewell_jane (st : ManagerState)
    (h : st.candidate_info.full_name = some "Jane Doe") :
    containsSubstr "Jane" (get_farewell_message st) = true := by
  unfold get_farewell_message
  rw [h]
  decide

/-- C7: handling the utterance "bye" while full_name is "Jane Doe" returns a
farewell containing "Jane", sets the conversation-ended flag, invokes the
persistence save exactly once with the full profile and message history,
and never consults the model. -/
theorem exit_bye_farewell :
    ∀ (ord : List String) (sess : SessionState) (ai : String),
      sess.manager.candidate_info.full_name = some "Jane Doe" →
      (containsSubstr "Jane" (handle_user_input ord sess "bye" ai).response = true) ∧
      ((handle_user_input ord sess "bye" ai).session.conversation_ended = true) ∧
      ((handle_user_input ord sess "bye" ai).saves =
        [(sess.manager.candidate_info, sess.messages)]) ∧
      ((handle_user_input ord sess "bye" ai).model_called = false) := by
  intro ord sess ai h
  have hexit : (APP_EXIT_KEYWORDS.any
      (fun kw => strMem kw (pySplit (strLower "bye")))) = true := by decide
  unfold handle_user_input
  rw [if_pos hexit]
  refine ⟨?_, rfl, rfl, rfl⟩
  show containsSubstr "Jane" (get_farewell_message sess.manager) = true
  exact farewell_jane sess.manager h

/-- Witness for C7 at a concrete session with full_name "Jane Doe". -/
theorem exit_bye_farewell_witness :
    (containsSubstr "Jane" (handle_user_input TECH_KEYWORDS_LIST
        { manager := { initialManager with candidate_info :=
            { emptyInfo with full_name := some "Jane Doe" } },
          messages := [("assistant", "hello")], conversation_ended := false }
        "bye" "unused").response = true) ∧
    ((handle_user_input TECH_KEYWORDS_LIST
        { manager := { initialManager with candidate_info :=
            { emptyInfo with full_name := some "Jane Doe" } },
          messages := [("assistant", "hello")], conversation_ended := false }
        "bye" "unused").session.conversation_ended = true) ∧
    ((handle_user_input TECH_KEYWORDS_LIST
        { manager := { initialManager with candidate_info :=
            { emptyInfo with full_name := some "Jane Doe" } },
          messages := [("assistant", "hello")], conversation_ended := false }
        "bye" "unused").saves =
      [({ emptyInfo with full_name := some "Jane Doe" },
        [("assistant", "hello")])]) ∧
    ((handle_user_input TECH_KEYWORDS_LIST
        { manager := { initialManager with candidate_info :=
            { emptyInfo with full_name := some "Jane Doe" } },
          messages := [("assistant", "hello")], conversation_ended := false }
        "bye" "unused").model_called = false) :=
  exit_bye_farewell TECH_KEYWORDS_LIST
    { manager := { initialManager with candidate_info :=
        { emptyInfo with full_name := some "Jane Doe" } },
      messages := [("assistant", "hello")], conversation_ended := false }
    "unused" rfl
